import Mathlib

/-!
Verification of the `passwd-rs` crate (`src/lib.rs`): a wrapper around the
libc `pwd.h` lookup functions `getpwnam_r` / `getpwuid_r`.

Shallow embedding notes.

* A nul-terminated C byte string (as read with `CStr::from_ptr` up to the
  terminating nul) is modelled by `CStr`: either `CStr.utf8 s`, bytes that are
  valid UTF-8 and decode to the Lean string `s`, or `CStr.invalid n`, a byte
  sequence of length `n` that is not valid UTF-8.  This abstraction is sound
  for the two operations the source performs on C strings: UTF-8 decoding
  (`CStr::to_str`), and the OS's byte-for-byte name comparison, which in the
  code only ever compares a database entry against a query that originated
  from a Rust `&str` (hence valid UTF-8); UTF-8 encoding is injective, so
  byte equality coincides with `String` equality on the `utf8` constructor,
  and a valid byte string never equals an invalid one.
* Rust panics (the `.unwrap()` calls on `CString::new` and `CStr::to_str`)
  are modelled as `Except.error` values of type `LookupError`, following the
  error taxonomy of the specification: `invalidInput` for the `NulError`
  panic in `from_name`, `decodeFailure` for the `Utf8Error` panics in
  `from_ptr`.
* The OS primitives are external collaborators.  The lookup functions are
  parametrised by an oracle `os : OsCall → PwResult` giving, for each
  possible call (query plus buffer capacity), the integer return code of the
  reentrant primitive and the final value of the `result` pointer (`none`
  models a null result pointer, `some e` a pointer to a filled `passwd`
  structure).  Each lookup also returns the list of calls it made to the
  primitive, so single-attempt properties are statements about that trace.
* `sysconf(_SC_GETPW_R_SIZE_MAX)` returns a C `long`; it is passed in as an
  `Int` parameter `sc`.  `Vec::with_capacity n` is modelled as producing a
  buffer whose `capacity()` is exactly `n` (exact for the global allocator
  on byte vectors).
* The `#[cfg(target_os = "android")]` / `#[cfg(not(...))]` split on the
  `gecos` field is modelled by a Boolean parameter `android` selecting
  between the two compiled variants.
* `libc::uid_t` / `libc::gid_t` are unsigned machine integers; the code does
  no arithmetic on them (they are copied and compared only), so they are
  modelled as `Nat`.
-/

deriving instance DecidableEq for Except

/-- A nul-terminated C byte string, abstracted by its UTF-8 decodability:
`utf8 s` stands for the (unique) valid UTF-8 encoding of `s`, `invalid n`
for an undecodable byte sequence of length `n` bytes. -/
inductive CStr where
  | utf8 (s : String)
  | invalid (len : Nat)
deriving DecidableEq, Repr

/-- Embedding of `CStr::to_str` from the Rust standard library: UTF-8 validation of the
bytes, `some` on success, `none` on a `Utf8Error`. -/
def CStr.to_str : CStr → Option String
  | CStr.utf8 s => some s
  | CStr.invalid _ => none

/-- Byte length of the C string (excluding the terminating nul); used only by
the model of the OS's buffer-space check. -/
def CStr.byteLen : CStr → Nat
  | CStr.utf8 s => s.utf8ByteSize
  | CStr.invalid n => n

/-- The `libc::passwd` structure as filled in by the OS: five C string
pointers and the two numeric ids. -/
structure CPasswd where
  pw_name : CStr
  pw_passwd : CStr
  pw_uid : Nat
  pw_gid : Nat
  pw_gecos : CStr
  pw_dir : CStr
  pw_shell : CStr
deriving DecidableEq, Repr

/-- The error taxonomy of the specification, used to model the two panic
sites: `invalidInput` is the `CString::new(user).unwrap()` panic on an
embedded nul byte, `decodeFailure` is a `CStr::to_str().unwrap()` panic on
invalid UTF-8. -/
inductive LookupError where
  | invalidInput
  | decodeFailure
deriving DecidableEq, Repr

/-- The owned `Passwd` record of the crate (struct `Passwd` in `lib.rs`). -/
structure Passwd where
  name : String
  password : String
  uid : Nat
  gid : Nat
  gecos : String
  home_dir : String
  shell : String
deriving DecidableEq, Repr

/-- Embedding of `s.to_str().unwrap()`: a failed decode panics, modelled as the
`decodeFailure` error. -/
def unwrapDecode (o : Option String) : Except LookupError String :=
  match o with
  | some s => Except.ok s
  | none => Except.error LookupError.decodeFailure

/-- Embedding of `Passwd::from_ptr` (lib.rs lines 41-56): decode every C string field of
the OS structure and copy `pw_uid` / `pw_gid` verbatim.  Each
`.to_str().unwrap()` panic is modelled as `Except.error .decodeFailure`;
since every failing unwrap raises the same modelled error, the five unwraps
are rendered as one simultaneous match.  On Android (`android = true`) the
structure has no `pw_gecos` member and the source substitutes
`String::new()` without any read; accordingly the match does not inspect
`pw_gecos` in that case. -/
def Passwd.from_ptr (android : Bool) (pwd : CPasswd) : Except LookupError Passwd :=
  match pwd.pw_name.to_str, pwd.pw_passwd.to_str,
      (if android then some "" else pwd.pw_gecos.to_str),
      pwd.pw_dir.to_str, pwd.pw_shell.to_str with
  | some name, some password, some gecos, some home_dir, some shell =>
      Except.ok { name := name, password := password, uid := pwd.pw_uid,
                  gid := pwd.pw_gid, gecos := gecos, home_dir := home_dir,
                  shell := shell }
  | _, _, _, _, _ => Except.error LookupError.decodeFailure

/-- Embedding of `getpw_r_size_max` (lib.rs lines 97-104): `sysconf(_SC_GETPW_R_SIZE_MAX)`
is passed in as `sc`; a negative result falls back to 512, any other result
is used verbatim (`n as usize`). -/
def getpw_r_size_max (sc : Int) : Nat :=
  if sc < 0 then 512 else sc.toNat

/-- The true Unicode nul character `U+0000`; a Rust `String` contains a 0
byte in its UTF-8 encoding exactly when it contains this character. -/
def nulChar : Char := Char.ofNat 0

/-- Whether the UTF-8 bytes of `s` contain an embedded nul byte. -/
def containsNul (s : String) : Bool := s.toList.contains nulChar

/-- Embedding of `CString::new(user)`: fails with a `NulError` exactly when the byte
representation contains an embedded nul; otherwise yields the same bytes,
nul-terminated. -/
def CString_new (s : String) : Option String :=
  if containsNul s then none else some s

/-- A query to the OS account database: `getpwnam_r` keyed by the (nul-free,
valid UTF-8) name bytes, or `getpwuid_r` keyed by a uid. -/
inductive PwQuery where
  | byName (user : String)
  | byUid (uid : Nat)
deriving DecidableEq, Repr

/-- One call to a reentrant lookup primitive: the query together with the
scratch-buffer capacity handed to the primitive. -/
structure OsCall where
  query : PwQuery
  bufcap : Nat
deriving DecidableEq, Repr

/-- The observable outcome of one call to `getpwnam_r` / `getpwuid_r`: the
integer return code and the final value of the caller's `result` pointer
(`none` for null, `some e` for a pointer to a filled structure). -/
structure PwResult where
  ret : Int
  result : Option CPasswd
deriving DecidableEq, Repr

/-- Embedding of `Passwd::from_name` (lib.rs lines 59-78), instrumented with the list of
calls it makes to the OS primitive.  Order follows the source:
`CString::new(user).unwrap()` first (an embedded nul panics before anything
else happens), then one call to `getpwnam_r` with a buffer of capacity
`getpw_r_size_max ()`, then the null test on `result` and, on a non-null
result, `Passwd::from_ptr`. -/
def Passwd.from_name (android : Bool) (sc : Int) (os : OsCall → PwResult)
    (user : String) : Except LookupError (Option Passwd) × List OsCall :=
  match CString_new user with
  | none => (Except.error LookupError.invalidInput, [])
  | some cuser =>
    let call : OsCall := { query := PwQuery.byName cuser, bufcap := getpw_r_size_max sc }
    match (os call).result with
    | none => (Except.ok none, [call])
    | some e =>
      match Passwd.from_ptr android e with
      | Except.error er => (Except.error er, [call])
      | Except.ok p => (Except.ok (some p), [call])

/-- Embedding of `Passwd::from_uid` (lib.rs lines 81-94), instrumented the same way: one
call to `getpwuid_r`, success decided by the null test on `result`. -/
def Passwd.from_uid (android : Bool) (sc : Int) (os : OsCall → PwResult)
    (uid : Nat) : Except LookupError (Option Passwd) × List OsCall :=
  let call : OsCall := { query := PwQuery.byUid uid, bufcap := getpw_r_size_max sc }
  match (os call).result with
  | none => (Except.ok none, [call])
  | some e =>
    match Passwd.from_ptr android e with
    | Except.error er => (Except.error er, [call])
    | Except.ok p => (Except.ok (some p), [call])

/-- Scratch-buffer bytes a `passwd` entry occupies: its five strings, each
with a terminating nul.  Part of the model of the OS collaborator (spec
section 6), not of the crate. -/
def pwEntrySize (e : CPasswd) : Nat :=
  e.pw_name.byteLen + 1 + (e.pw_passwd.byteLen + 1) + (e.pw_gecos.byteLen + 1)
    + (e.pw_dir.byteLen + 1) + (e.pw_shell.byteLen + 1)

/-- Model of the OS collaborator `getpwnam_r` over a concrete account
database `db` (spec section 6: query by name): the first entry whose name
bytes equal the query bytes; 0 with a null result when there is no match;
`ERANGE` (34) with a null result when the match does not fit in the caller's
buffer. -/
def getpwnam_r (db : List CPasswd) (user : String) (bufcap : Nat) : PwResult :=
  match db.find? (fun e => decide (e.pw_name = CStr.utf8 user)) with
  | none => { ret := 0, result := none }
  | some e =>
    if pwEntrySize e ≤ bufcap then { ret := 0, result := some e }
    else { ret := 34, result := none }

/-- Model of the OS collaborator `getpwuid_r` over a concrete account
database `db` (spec section 6: query by uid). -/
def getpwuid_r (db : List CPasswd) (uid : Nat) (bufcap : Nat) : PwResult :=
  match db.find? (fun e => decide (e.pw_uid = uid)) with
  | none => { ret := 0, result := none }
  | some e =>
    if pwEntrySize e ≤ bufcap then { ret := 0, result := some e }
    else { ret := 34, result := none }

/-- The OS oracle induced by a concrete account database. -/
def osDB (db : List CPasswd) : OsCall → PwResult
  | { query := PwQuery.byName u, bufcap := cap } => getpwnam_r db u cap
  | { query := PwQuery.byUid v, bufcap := cap } => getpwuid_r db v cap

-- Concrete entries used by witnesses and counterexamples.

/-- A conventional root entry. -/
def rootEntry : CPasswd :=
  { pw_name := CStr.utf8 "root", pw_passwd := CStr.utf8 "x", pw_uid := 0,
    pw_gid := 0, pw_gecos := CStr.utf8 "root", pw_dir := CStr.utf8 "/root",
    pw_shell := CStr.utf8 "/bin/bash" }

/-- A second entry sharing uid 0 with `rootEntry` (as `toor` does on some
BSD systems). -/
def toorEntry : CPasswd :=
  { pw_name := CStr.utf8 "toor", pw_passwd := CStr.utf8 "x", pw_uid := 0,
    pw_gid := 0, pw_gecos := CStr.utf8 "", pw_dir := CStr.utf8 "/root",
    pw_shell := CStr.utf8 "/bin/sh" }

/-- An ordinary user entry. -/
def aliceEntry : CPasswd :=
  { pw_name := CStr.utf8 "alice", pw_passwd := CStr.utf8 "x", pw_uid := 1000,
    pw_gid := 1000, pw_gecos := CStr.utf8 "Alice", pw_dir := CStr.utf8 "/home/alice",
    pw_shell := CStr.utf8 "/bin/bash" }

/-- An entry whose gecos bytes are not valid UTF-8. -/
def badGecosEntry : CPasswd :=
  { pw_name := CStr.utf8 "bad", pw_passwd := CStr.utf8 "x", pw_uid := 7,
    pw_gid := 7, pw_gecos := CStr.invalid 3, pw_dir := CStr.utf8 "/",
    pw_shell := CStr.utf8 "/bin/sh" }

/-- The owned record a successful decode of `rootEntry` produces. -/
def rootRec : Passwd :=
  { name := "root", password := "x", uid := 0, gid := 0, gecos := "root",
    home_dir := "/root", shell := "/bin/bash" }

/-- The owned record a successful decode of `toorEntry` produces. -/
def toorRec : Passwd :=
  { name := "toor", password := "x", uid := 0, gid := 0, gecos := "",
    home_dir := "/root", shell := "/bin/sh" }

/-- The owned record a successful decode of `aliceEntry` produces. -/
def aliceRec : Passwd :=
  { name := "alice", password := "x", uid := 1000, gid := 1000, gecos := "Alice",
    home_dir := "/home/alice", shell := "/bin/bash" }

/-! Helper lemmas about the embedded definitions, shared by the claim
theorems below. -/

lemma CString_new_some {s t : String} (h : CString_new s = some t) :
    containsNul s = false ∧ t = s := by
  unfold CString_new at h
  split at h
  · cases h
  · exact ⟨by simp_all, (Option.some.inj h).symm⟩

lemma CString_new_none {s : String} (h : CString_new s = none) :
    containsNul s = true := by
  unfold CString_new at h
  split at h
  · assumption
  · cases h

lemma CString_new_of_not_nul {s : String} (h : containsNul s = false) :
    CString_new s = some s := by
  simp [CString_new, h]

/-- If the result pointer of the (single) `getpwnam_r` call is null, the
lookup returns `None` after exactly that one call, whatever the return code
was. -/
lemma from_name_result_none {android : Bool} {sc : Int} {os : OsCall → PwResult}
    {user : String} (hnul : containsNul user = false)
    (hr : (os { query := PwQuery.byName user, bufcap := getpw_r_size_max sc }).result = none) :
    Passwd.from_name android sc os user
      = (Except.ok none, [{ query := PwQuery.byName user, bufcap := getpw_r_size_max sc }]) := by
  simp [Passwd.from_name, CString_new_of_not_nul hnul, hr]

lemma from_name_result_some {android : Bool} {sc : Int} {os : OsCall → PwResult}
    {user : String} {e : CPasswd} (hnul : containsNul user = false)
    (hr : (os { query := PwQuery.byName user, bufcap := getpw_r_size_max sc }).result = some e) :
    Passwd.from_name android sc os user
      = (match Passwd.from_ptr android e with
         | Except.error er => Except.error er
         | Except.ok p => Except.ok (some p),
         [{ query := PwQuery.byName user, bufcap := getpw_r_size_max sc }]) := by
  simp [Passwd.from_name, CString_new_of_not_nul hnul, hr]
  cases Passwd.from_ptr android e <;> rfl

lemma from_uid_result_none {android : Bool} {sc : Int} {os : OsCall → PwResult}
    {uid : Nat}
    (hr : (os { query := PwQuery.byUid uid, bufcap := getpw_r_size_max sc }).result = none) :
    Passwd.from_uid android sc os uid
      = (Except.ok none, [{ query := PwQuery.byUid uid, bufcap := getpw_r_size_max sc }]) := by
  simp [Passwd.from_uid, hr]

lemma from_uid_result_some {android : Bool} {sc : Int} {os : OsCall → PwResult}
    {uid : Nat} {e : CPasswd}
    (hr : (os { query := PwQuery.byUid uid, bufcap := getpw_r_size_max sc }).result = some e) :
    Passwd.from_uid android sc os uid
      = (match Passwd.from_ptr android e with
         | Except.error er => Except.error er
         | Except.ok p => Except.ok (some p),
         [{ query := PwQuery.byUid uid, bufcap := getpw_r_size_max sc }]) := by
  simp [Passwd.from_uid, hr]
  cases Passwd.from_ptr android e <;> rfl

/-- Inversion: a name lookup that produced a record went through a nul-free
query, a non-null result pointer, and a successful decode. -/
lemma from_name_ok_some_inv {android : Bool} {sc : Int} {os : OsCall → PwResult}
    {user : String} {p : Passwd}
    (h : (Passwd.from_name android sc os user).1 = Except.ok (some p)) :
    containsNul user = false ∧
      ∃ e, (os { query := PwQuery.byName user, bufcap := getpw_r_size_max sc }).result = some e ∧
        Passwd.from_ptr android e = Except.ok p := by
  cases hcn : CString_new user with
  | none =>
    simp [Passwd.from_name, hcn] at h
  | some cu =>
    obtain ⟨h1, h2⟩ := CString_new_some hcn
    subst h2
    refine ⟨h1, ?_⟩
    cases hr : (os { query := PwQuery.byName cu, bufcap := getpw_r_size_max sc }).result with
    | none => simp [Passwd.from_name, hcn, hr] at h
    | some e =>
      refine ⟨e, rfl, ?_⟩
      cases hp : Passwd.from_ptr android e with
      | error er => simp [Passwd.from_name, hcn, hr, hp] at h
      | ok q => simp [Passwd.from_name, hcn, hr, hp] at h; rw [h]

/-- Inversion for the uid lookup. -/
lemma from_uid_ok_some_inv {android : Bool} {sc : Int} {os : OsCall → PwResult}
    {uid : Nat} {p : Passwd}
    (h : (Passwd.from_uid android sc os uid).1 = Except.ok (some p)) :
    ∃ e, (os { query := PwQuery.byUid uid, bufcap := getpw_r_size_max sc }).result = some e ∧
      Passwd.from_ptr android e = Except.ok p := by
  cases hr : (os { query := PwQuery.byUid uid, bufcap := getpw_r_size_max sc }).result with
  | none => simp [Passwd.from_uid, hr] at h
  | some e =>
    refine ⟨e, rfl, ?_⟩
    cases hp : Passwd.from_ptr android e with
    | error er => simp [Passwd.from_uid, hr, hp] at h
    | ok q => simp [Passwd.from_uid, hr, hp] at h; rw [h]

/-- Every call recorded by a name lookup carries the sysconf-derived
capacity. -/
lemma from_name_bufcap {android : Bool} {sc : Int} {os : OsCall → PwResult}
    {user : String} {c : OsCall} (hc : c ∈ (Passwd.from_name android sc os user).2) :
    c.bufcap = getpw_r_size_max sc := by
  cases hcn : CString_new user with
  | none => simp [Passwd.from_name, hcn] at hc
  | some cu =>
    cases hr : (os { query := PwQuery.byName cu, bufcap := getpw_r_size_max sc }).result with
    | none =>
      simp [Passwd.from_name, hcn, hr] at hc
      rw [hc]
    | some e =>
      cases hp : Passwd.from_ptr android e with
      | error er =>
        simp [Passwd.from_name, hcn, hr, hp] at hc
        rw [hc]
      | ok p =>
        simp [Passwd.from_name, hcn, hr, hp] at hc
        rw [hc]

/-- Every call recorded by a uid lookup carries the sysconf-derived
capacity. -/
lemma from_uid_bufcap {android : Bool} {sc : Int} {os : OsCall → PwResult}
    {uid : Nat} {c : OsCall} (hc : c ∈ (Passwd.from_uid android sc os uid).2) :
    c.bufcap = getpw_r_size_max sc := by
  cases hr : (os { query := PwQuery.byUid uid, bufcap := getpw_r_size_max sc }).result with
  | none =>
    simp [Passwd.from_uid, hr] at hc
    rw [hc]
  | some e =>
    cases hp : Passwd.from_ptr android e with
    | error er =>
      simp [Passwd.from_uid, hr, hp] at hc
      rw [hc]
    | ok p =>
      simp [Passwd.from_uid, hr, hp] at hc
      rw [hc]

/-- A successful decode copies every field out of the OS structure:
the strings are the decodings of the entry's bytes, `uid` / `gid` are
verbatim copies, and on Android the gecos field is the empty string. -/
lemma from_ptr_ok_fields {android : Bool} {e : CPasswd} {p : Passwd}
    (h : Passwd.from_ptr android e = Except.ok p) :
    e.pw_name.to_str = some p.name ∧ e.pw_passwd.to_str = some p.password ∧
      p.uid = e.pw_uid ∧ p.gid = e.pw_gid ∧
      (android = true → p.gecos = "") ∧
      (android = false → e.pw_gecos.to_str = some p.gecos) ∧
      e.pw_dir.to_str = some p.home_dir ∧ e.pw_shell.to_str = some p.shell := by
  unfold Passwd.from_ptr at h
  split at h
  · injection h with h2
    subst h2
    cases android <;> simp_all
  · cases h

/-- If any required field fails UTF-8 validation, the decode fails with
`decodeFailure` (the modelled `unwrap` panic). -/
lemma from_ptr_error_of_bad {android : Bool} {e : CPasswd}
    (hbad : e.pw_name.to_str = none ∨ e.pw_passwd.to_str = none ∨
        (android = false ∧ e.pw_gecos.to_str = none) ∨ e.pw_dir.to_str = none ∨
        e.pw_shell.to_str = none) :
    Passwd.from_ptr android e = Except.error LookupError.decodeFailure := by
  unfold Passwd.from_ptr
  split
  · rcases hbad with h | h | ⟨ha, h⟩ | h | h <;> simp_all
  · rfl

/-- On Android the decode never reads the gecos bytes: replacing them does
not change the result. -/
lemma from_ptr_gecos_irrelevant (e : CPasswd) (g : CStr) :
    Passwd.from_ptr true { e with pw_gecos := g } = Passwd.from_ptr true e := by
  simp [Passwd.from_ptr]

@[simp] lemma osDB_byName (db : List CPasswd) (u : String) (cap : Nat) :
    osDB db { query := PwQuery.byName u, bufcap := cap } = getpwnam_r db u cap := rfl

@[simp] lemma osDB_byUid (db : List CPasswd) (v : Nat) (cap : Nat) :
    osDB db { query := PwQuery.byUid v, bufcap := cap } = getpwuid_r db v cap := rfl

lemma getpwnam_r_found {db : List CPasswd} {user : String} {bufcap : Nat} {e : CPasswd}
    (hf : db.find? (fun x => decide (x.pw_name = CStr.utf8 user)) = some e)
    (hsz : pwEntrySize e ≤ bufcap) :
    getpwnam_r db user bufcap = { ret := 0, result := some e } := by
  simp [getpwnam_r, hf, hsz]

lemma getpwuid_r_found {db : List CPasswd} {uid : Nat} {bufcap : Nat} {e : CPasswd}
    (hf : db.find? (fun x => decide (x.pw_uid = uid)) = some e)
    (hsz : pwEntrySize e ≤ bufcap) :
    getpwuid_r db uid bufcap = { ret := 0, result := some e } := by
  simp [getpwuid_r, hf, hsz]

lemma getpwnam_r_result_some {db : List CPasswd} {user : String} {bufcap : Nat} {e : CPasswd}
    (h : (getpwnam_r db user bufcap).result = some e) :
    db.find? (fun x => decide (x.pw_name = CStr.utf8 user)) = some e ∧
      pwEntrySize e ≤ bufcap := by
  unfold getpwnam_r at h
  split at h
  · cases h
  · split at h
    · cases h
      simp_all
    · cases h

/-- In a database whose uids are pairwise distinct, the uid search finds
exactly the member with that uid. -/
lemma find_uid_of_mem {db : List CPasswd} {e : CPasswd}
    (huniq : db.Pairwise (fun a b => a.pw_uid ≠ b.pw_uid)) (he : e ∈ db) :
    db.find? (fun x => decide (x.pw_uid = e.pw_uid)) = some e := by
  induction db with
  | nil => cases he
  | cons a t ih =>
    rcases List.mem_cons.mp he with rfl | hm
    · simp [List.find?]
    · have hne : a.pw_uid ≠ e.pw_uid :=
        (List.pairwise_cons.mp huniq).1 e hm
      rw [List.find?_cons_of_neg]
      · exact ih (List.pairwise_cons.mp huniq).2 hm
      · simp [hne]


/-! The claim theorems. -/

/-- C1: for every query name containing an embedded nul byte,
`Passwd::from_name` fails with the `InvalidInput` error (the modelled
`CString::new(user).unwrap()` panic) and makes no call to the OS lookup
primitive (the call trace is empty). -/
theorem c1_nul_name_fails_without_os_call (android : Bool) (sc : Int)
    (os : OsCall → PwResult) (user : String) (hnul : containsNul user = true) :
    Passwd.from_name android sc os user = (Except.error LookupError.invalidInput, []) := by
  simp [Passwd.from_name, CString_new, hnul]

/-- Witness for C1 at the concrete name "a\x00b". -/
theorem c1_witness :
    containsNul "a\x00b" = true ∧
      Passwd.from_name false 0 (fun _ => { ret := 0, result := none }) "a\x00b"
        = (Except.error LookupError.invalidInput, []) :=
  ⟨by decide,
   c1_nul_name_fails_without_os_call false 0 (fun _ => { ret := 0, result := none })
     "a\x00b" (by decide)⟩

/-- C3: when the reentrant primitive signals insufficient buffer space (it
returns `ERANGE` and leaves the result pointer null), each lookup makes
exactly one call to the primitive (the trace is a single call) and returns
`None`; no hypothesis constrains the return code, so the outcome is the same
as for a genuine no-match result. -/
theorem c3_single_attempt_none_on_null_result (android : Bool) (sc : Int)
    (os : OsCall → PwResult) (user : String) (uid : Nat) :
    (containsNul user = false →
      (os { query := PwQuery.byName user, bufcap := getpw_r_size_max sc }).result = none →
      Passwd.from_name android sc os user
        = (Except.ok none, [{ query := PwQuery.byName user, bufcap := getpw_r_size_max sc }])) ∧
    ((os { query := PwQuery.byUid uid, bufcap := getpw_r_size_max sc }).result = none →
      Passwd.from_uid android sc os uid
        = (Except.ok none, [{ query := PwQuery.byUid uid, bufcap := getpw_r_size_max sc }])) :=
  ⟨fun hnul hr => from_name_result_none hnul hr, fun hr => from_uid_result_none hr⟩

/-- Witness for C3: an OS oracle that always answers `ERANGE` (34) with a
null result pointer. -/
theorem c3_witness :
    Passwd.from_name false 100 (fun _ => { ret := 34, result := none }) "root"
      = (Except.ok none, [{ query := PwQuery.byName "root", bufcap := getpw_r_size_max 100 }]) ∧
    Passwd.from_uid false 100 (fun _ => { ret := 34, result := none }) 0
      = (Except.ok none, [{ query := PwQuery.byUid 0, bufcap := getpw_r_size_max 100 }]) :=
  ⟨(c3_single_attempt_none_on_null_result false 100 (fun _ => { ret := 34, result := none })
      "root" 0).1 (by decide) rfl,
   (c3_single_attempt_none_on_null_result false 100 (fun _ => { ret := 34, result := none })
      "root" 0).2 rfl⟩

/-- C4: `getpw_r_size_max` yields the sysconf value verbatim when that value
is nonnegative and falls back to 512 when sysconf reports an invalid or
unsupported value (a negative result), and every call either lookup makes to
the reentrant primitive passes exactly that capacity as the scratch-buffer
size. -/
theorem c4_buffer_capacity_policy :
    (∀ sc : Int, sc < 0 → getpw_r_size_max sc = 512) ∧
    (∀ sc : Int, 0 ≤ sc → getpw_r_size_max sc = sc.toNat) ∧
    (∀ (android : Bool) (sc : Int) (os : OsCall → PwResult) (user : String) (c : OsCall),
      c ∈ (Passwd.from_name android sc os user).2 → c.bufcap = getpw_r_size_max sc) ∧
    (∀ (android : Bool) (sc : Int) (os : OsCall → PwResult) (uid : Nat) (c : OsCall),
      c ∈ (Passwd.from_uid android sc os uid).2 → c.bufcap = getpw_r_size_max sc) := by
  refine ⟨fun sc h => by simp [getpw_r_size_max, h], fun sc h => ?_, ?_, ?_⟩
  · have : ¬ sc < 0 := not_lt.mpr h
    simp [getpw_r_size_max, this]
  · exact fun _ _ _ _ _ hc => from_name_bufcap hc
  · exact fun _ _ _ _ _ hc => from_uid_bufcap hc

/-- Witness for C4: a negative sysconf result gives a 512-byte buffer on the
recorded call, a nonnegative one is used verbatim. -/
theorem c4_witness :
    getpw_r_size_max (-1) = 512 ∧ getpw_r_size_max 4096 = (4096 : Int).toNat ∧
      ({ query := PwQuery.byName "root", bufcap := 512 } : OsCall).bufcap
        = getpw_r_size_max (-1) :=
  ⟨c4_buffer_capacity_policy.1 (-1) (by decide),
   c4_buffer_capacity_policy.2.1 4096 (by decide),
   c4_buffer_capacity_policy.2.2.1 false (-1) (fun _ => { ret := 0, result := none })
     "root" { query := PwQuery.byName "root", bufcap := 512 } (by decide)⟩

/-- C9: both lookups ignore the integer return code of the reentrant
primitive entirely: two oracles whose result pointers agree produce
identical outcomes however their return codes differ, and a null result
pointer always yields `None` (never an error value), whatever error the
return code signals. -/
theorem c9_return_code_ignored (android : Bool) (sc : Int)
    (os os' : OsCall → PwResult) (hsame : ∀ c, (os c).result = (os' c).result) :
    (∀ user, Passwd.from_name android sc os user = Passwd.from_name android sc os' user) ∧
    (∀ uid, Passwd.from_uid android sc os uid = Passwd.from_uid android sc os' uid) ∧
    (∀ user, containsNul user = false →
      (os { query := PwQuery.byName user, bufcap := getpw_r_size_max sc }).result = none →
      (Passwd.from_name android sc os user).1 = Except.ok none) ∧
    (∀ uid, (os { query := PwQuery.byUid uid, bufcap := getpw_r_size_max sc }).result = none →
      (Passwd.from_uid android sc os uid).1 = Except.ok none) := by
  refine ⟨fun user => ?_, fun uid => ?_,
    fun user hnul hr => by rw [from_name_result_none hnul hr],
    fun uid hr => by rw [from_uid_result_none hr]⟩
  · simp only [Passwd.from_name, hsame]
  · simp only [Passwd.from_uid, hsame]

/-- Witness for C9: an oracle signalling EINTR (4) with a null result is
indistinguishable from a clean no-match. -/
theorem c9_witness :
    Passwd.from_name false 0 (fun _ => { ret := 4, result := none }) "root"
      = Passwd.from_name false 0 (fun _ => { ret := 0, result := none }) "root" ∧
    (Passwd.from_uid false 0 (fun _ => { ret := 4, result := none }) 0).1 = Except.ok none :=
  ⟨(c9_return_code_ignored false 0 (fun _ => { ret := 4, result := none })
      (fun _ => { ret := 0, result := none }) (fun _ => rfl)).1 "root",
   (c9_return_code_ignored false 0 (fun _ => { ret := 4, result := none })
      (fun _ => { ret := 0, result := none }) (fun _ => rfl)).2.2.2 0 rfl⟩

/-- C10: the 512-byte fallback applies only to strictly negative sysconf
results; every nonnegative result, zero included, is used verbatim, so a
sysconf result of 0 makes both lookups pass a zero-capacity buffer to the
primitive. -/
theorem c10_zero_sysconf_gives_zero_capacity :
    getpw_r_size_max 0 = 0 ∧
    (∀ n : Int, 0 ≤ n → getpw_r_size_max n = n.toNat) ∧
    (∀ n : Int, n < 0 → getpw_r_size_max n = 512) ∧
    (∀ (android : Bool) (os : OsCall → PwResult) (user : String) (c : OsCall),
      c ∈ (Passwd.from_name android 0 os user).2 → c.bufcap = 0) ∧
    (∀ (android : Bool) (os : OsCall → PwResult) (uid : Nat) (c : OsCall),
      c ∈ (Passwd.from_uid android 0 os uid).2 → c.bufcap = 0) := by
  refine ⟨rfl, fun n h => ?_, fun n h => by simp [getpw_r_size_max, h], ?_, ?_⟩
  · have : ¬ n < 0 := not_lt.mpr h
    simp [getpw_r_size_max, this]
  · exact fun _ _ _ _ hc => from_name_bufcap hc
  · exact fun _ _ _ _ hc => from_uid_bufcap hc

/-- Witness for C10: with sysconf result 0 the recorded call carries a
zero-capacity buffer. -/
theorem c10_witness :
    getpw_r_size_max 5 = (5 : Int).toNat ∧
      ({ query := PwQuery.byUid 3, bufcap := 0 } : OsCall).bufcap = 0 :=
  ⟨c10_zero_sysconf_gives_zero_capacity.2.1 5 (by decide),
   c10_zero_sysconf_gives_zero_capacity.2.2.2.2 false (fun _ => { ret := 0, result := none })
     3 { query := PwQuery.byUid 3, bufcap := 0 } (by decide)⟩

/-- C2: if the entry the OS hands back has any string field whose bytes are
not valid UTF-8 (on Android the absent gecos field exempted), the lookup —
by name or by uid — fails with the `DecodeFailure` error (the modelled
`to_str().unwrap()` panic); it never produces a record with a substituted or
truncated field. -/
theorem c2_decode_failure_propagates (android : Bool) (sc : Int)
    (os : OsCall → PwResult) (user : String) (uid : Nat) (e : CPasswd)
    (hbad : e.pw_name.to_str = none ∨ e.pw_passwd.to_str = none ∨
        (android = false ∧ e.pw_gecos.to_str = none) ∨ e.pw_dir.to_str = none ∨
        e.pw_shell.to_str = none) :
    (containsNul user = false →
      (os { query := PwQuery.byName user, bufcap := getpw_r_size_max sc }).result = some e →
      (Passwd.from_name android sc os user).1 = Except.error LookupError.decodeFailure) ∧
    ((os { query := PwQuery.byUid uid, bufcap := getpw_r_size_max sc }).result = some e →
      (Passwd.from_uid android sc os uid).1 = Except.error LookupError.decodeFailure) := by
  have hp := @from_ptr_error_of_bad android e hbad
  constructor
  · intro hnul hr
    rw [from_name_result_some hnul hr, hp]
  · intro hr
    rw [from_uid_result_some hr, hp]

/-- Witness for C2: a database whose single entry has undecodable gecos
bytes makes both lookups fail with `DecodeFailure`. -/
theorem c2_witness :
    (Passwd.from_name false (-1) (osDB [badGecosEntry]) "bad").1
        = Except.error LookupError.decodeFailure ∧
      (Passwd.from_uid false (-1) (osDB [badGecosEntry]) 7).1
        = Except.error LookupError.decodeFailure := by
  have h := c2_decode_failure_propagates false (-1) (osDB [badGecosEntry]) "bad" 7
    badGecosEntry (by decide)
  exact ⟨h.1 (by decide) (by decide), h.2 (by decide)⟩

/-- C5: a lookup returns `Some p` exactly when the primitive's result
pointer is non-null and every field decodes, `None` exactly on a null result
pointer, and a decoded record's every field is a copy of the corresponding
member of the OS structure (strings via UTF-8 decoding, `uid` and `gid`
verbatim); no partially filled record is possible. -/
theorem c5_some_iff_match (android : Bool) (sc : Int) (os : OsCall → PwResult)
    (user : String) (uid : Nat) (hnul : containsNul user = false) :
    (∀ p, (Passwd.from_name android sc os user).1 = Except.ok (some p) ↔
      ∃ e, (os { query := PwQuery.byName user, bufcap := getpw_r_size_max sc }).result = some e ∧
        Passwd.from_ptr android e = Except.ok p) ∧
    ((os { query := PwQuery.byName user, bufcap := getpw_r_size_max sc }).result = none →
      (Passwd.from_name android sc os user).1 = Except.ok none) ∧
    (∀ p, (Passwd.from_uid android sc os uid).1 = Except.ok (some p) ↔
      ∃ e, (os { query := PwQuery.byUid uid, bufcap := getpw_r_size_max sc }).result = some e ∧
        Passwd.from_ptr android e = Except.ok p) ∧
    ((os { query := PwQuery.byUid uid, bufcap := getpw_r_size_max sc }).result = none →
      (Passwd.from_uid android sc os uid).1 = Except.ok none) ∧
    (∀ e p, Passwd.from_ptr android e = Except.ok p →
      e.pw_name.to_str = some p.name ∧ e.pw_passwd.to_str = some p.password ∧
        p.uid = e.pw_uid ∧ p.gid = e.pw_gid ∧
        (android = false → e.pw_gecos.to_str = some p.gecos) ∧
        e.pw_dir.to_str = some p.home_dir ∧ e.pw_shell.to_str = some p.shell) := by
  refine ⟨fun p => ⟨fun h => (from_name_ok_some_inv h).2, ?_⟩,
    fun hr => by rw [from_name_result_none hnul hr],
    fun p => ⟨fun h => from_uid_ok_some_inv h, ?_⟩,
    fun hr => by rw [from_uid_result_none hr],
    fun e p hp => ?_⟩
  · rintro ⟨e, hr, hp⟩
    rw [from_name_result_some hnul hr, hp]
  · rintro ⟨e, hr, hp⟩
    rw [from_uid_result_some hr, hp]
  · obtain ⟨h1, h2, h3, h4, _, h6, h7, h8⟩ := from_ptr_ok_fields hp
    exact ⟨h1, h2, h3, h4, h6, h7, h8⟩

/-- Witness for C5: the concrete database resolves "alice" to her record and
uid 1000 to the same, and no-match yields `None`. -/
theorem c5_witness :
    (Passwd.from_name false (-1) (osDB [rootEntry, aliceEntry]) "alice").1
        = Except.ok (some aliceRec) ∧
      (Passwd.from_uid false (-1) (osDB [rootEntry, aliceEntry]) 1000).1
        = Except.ok (some aliceRec) := by
  have h := c5_some_iff_match false (-1) (osDB [rootEntry, aliceEntry]) "alice" 1000 (by decide)
  exact ⟨(h.1 aliceRec).mpr ⟨aliceEntry, by decide, by decide⟩,
    (h.2.2.1 aliceRec).mpr ⟨aliceEntry, by decide, by decide⟩⟩

/-- C8: on Android every record a successful lookup produces has an empty
gecos field, and the decode never reads the gecos member of the OS
structure: replacing those bytes (even with undecodable ones) leaves the
result unchanged. -/
theorem c8_android_empty_gecos (sc : Int) (os : OsCall → PwResult)
    (user : String) (uid : Nat) :
    (∀ p, (Passwd.from_name true sc os user).1 = Except.ok (some p) → p.gecos = "") ∧
    (∀ p, (Passwd.from_uid true sc os uid).1 = Except.ok (some p) → p.gecos = "") ∧
    (∀ (e : CPasswd) (g : CStr),
      Passwd.from_ptr true { e with pw_gecos := g } = Passwd.from_ptr true e) := by
  refine ⟨fun p h => ?_, fun p h => ?_, fun e g => from_ptr_gecos_irrelevant e g⟩
  · obtain ⟨_, e, _, hp⟩ := from_name_ok_some_inv h
    exact (from_ptr_ok_fields hp).2.2.2.2.1 rfl
  · obtain ⟨e, _, hp⟩ := from_uid_ok_some_inv h
    exact (from_ptr_ok_fields hp).2.2.2.2.1 rfl

/-- The record the Android variant produces for `rootEntry`: empty gecos. -/
def rootRecAndroid : Passwd :=
  { name := "root", password := "x", uid := 0, gid := 0, gecos := "",
    home_dir := "/root", shell := "/bin/bash" }

/-- Witness for C8 on the concrete root entry. -/
theorem c8_witness :
    rootRecAndroid.gecos = "" ∧
      Passwd.from_ptr true { rootEntry with pw_gecos := CStr.invalid 5 }
        = Passwd.from_ptr true rootEntry := by
  have h := c8_android_empty_gecos (-1) (osDB [rootEntry]) "root" 0
  exact ⟨h.1 rootRecAndroid (by decide), h.2.2 rootEntry (CStr.invalid 5)⟩

/-- C6: when a name lookup finds an entry (the OS match is exactly the first
entry whose name bytes equal the query bytes) and the record decodes, the
record's `name` equals the queried name exactly; when a uid lookup finds an
entry, the record's `uid` equals the queried uid exactly; in both cases
`uid` and `gid` are verbatim copies of the entry's fields, with no range
validation. -/
theorem c6_queried_key_exact (android : Bool) (sc : Int) (db : List CPasswd) :
    (∀ (user : String) (e : CPasswd) (p : Passwd),
      containsNul user = false →
      db.find? (fun x => decide (x.pw_name = CStr.utf8 user)) = some e →
      pwEntrySize e ≤ getpw_r_size_max sc →
      Passwd.from_ptr android e = Except.ok p →
      (Passwd.from_name android sc (osDB db) user).1 = Except.ok (some p) ∧
        p.name = user ∧ p.uid = e.pw_uid ∧ p.gid = e.pw_gid) ∧
    (∀ (uid : Nat) (e : CPasswd) (p : Passwd),
      db.find? (fun x => decide (x.pw_uid = uid)) = some e →
      pwEntrySize e ≤ getpw_r_size_max sc →
      Passwd.from_ptr android e = Except.ok p →
      (Passwd.from_uid android sc (osDB db) uid).1 = Except.ok (some p) ∧
        p.uid = uid ∧ p.gid = e.pw_gid) := by
  constructor
  · intro user e p hnul hf hsz hp
    have hr :
        (osDB db { query := PwQuery.byName user, bufcap := getpw_r_size_max sc }).result
          = some e := by
      rw [osDB_byName, getpwnam_r_found hf hsz]
    have hname : e.pw_name = CStr.utf8 user := by
      have h0 := List.find?_some hf
      simpa using h0
    obtain ⟨h1, _, h3, h4, _⟩ := from_ptr_ok_fields hp
    rw [hname] at h1
    refine ⟨?_, Option.some.inj h1.symm, h3, h4⟩
    rw [from_name_result_some hnul hr, hp]
  · intro uid e p hf hsz hp
    have hr :
        (osDB db { query := PwQuery.byUid uid, bufcap := getpw_r_size_max sc }).result
          = some e := by
      rw [osDB_byUid, getpwuid_r_found hf hsz]
    have huid : e.pw_uid = uid := by
      have h0 := List.find?_some hf
      simpa using h0
    obtain ⟨_, _, h3, h4, _⟩ := from_ptr_ok_fields hp
    refine ⟨?_, huid ▸ h3, h4⟩
    rw [from_uid_result_some hr, hp]

/-- Witness for C6 on the concrete root entry. -/
theorem c6_witness :
    (Passwd.from_name false (-1) (osDB [rootEntry, aliceEntry]) "root").1
        = Except.ok (some rootRec) ∧
      rootRec.name = "root" ∧ rootRec.uid = rootEntry.pw_uid ∧
      (Passwd.from_uid false (-1) (osDB [rootEntry, aliceEntry]) 0).1
        = Except.ok (some rootRec) ∧ rootRec.uid = 0 := by
  have h := c6_queried_key_exact false (-1) [rootEntry, aliceEntry]
  have h1 := h.1 "root" rootEntry rootRec (by decide) (by decide) (by decide) (by decide)
  have h2 := h.2 0 rootEntry rootRec (by decide) (by decide) (by decide)
  exact ⟨h1.1, h1.2.1, h1.2.2.1, h2.1, h2.2.1⟩

/-- C7 as stated is false on the code: in a database where two accounts
share a uid (as `root` and `toor` classically do), looking up the later one
by name and then looking up the uid from the returned record yields the
other account's record, with a different name and shell. -/
theorem c7_counterexample :
    (Passwd.from_name false (-1) (osDB [rootEntry, toorEntry]) "toor").1
        = Except.ok (some toorRec) ∧
      (Passwd.from_uid false (-1) (osDB [rootEntry, toorEntry]) toorRec.uid).1
        = Except.ok (some rootRec) ∧
      rootRec.name ≠ toorRec.name ∧ rootRec.shell ≠ toorRec.shell := by decide

/-- C7 amended: in a database whose entries carry pairwise distinct uids,
looking up an account by name and then looking up the uid taken from the
returned record yields a record with identical name, uid, gid, home_dir and
shell field values. -/
theorem c7_roundtrip_distinct_uids (android : Bool) (sc : Int) (db : List CPasswd)
    (user : String) (r : Passwd)
    (huniq : db.Pairwise (fun a b => a.pw_uid ≠ b.pw_uid))
    (h : (Passwd.from_name android sc (osDB db) user).1 = Except.ok (some r)) :
    ∃ r', (Passwd.from_uid android sc (osDB db) r.uid).1 = Except.ok (some r') ∧
      r'.name = r.name ∧ r'.uid = r.uid ∧ r'.gid = r.gid ∧
      r'.home_dir = r.home_dir ∧ r'.shell = r.shell := by
  obtain ⟨hnul, e, hr, hp⟩ := from_name_ok_some_inv h
  rw [osDB_byName] at hr
  obtain ⟨hf, hsz⟩ := getpwnam_r_result_some hr
  have he : e ∈ db := List.mem_of_find?_eq_some hf
  have huid : r.uid = e.pw_uid := (from_ptr_ok_fields hp).2.2.1
  have hfind : db.find? (fun x => decide (x.pw_uid = e.pw_uid)) = some e :=
    find_uid_of_mem huniq he
  have hr' :
      (osDB db { query := PwQuery.byUid r.uid, bufcap := getpw_r_size_max sc }).result
        = some e := by
    rw [osDB_byUid, huid, getpwuid_r_found hfind hsz]
  refine ⟨r, ?_, rfl, rfl, rfl, rfl, rfl⟩
  rw [from_uid_result_some hr', hp]

/-- Witness for the amended C7 on a database with distinct uids. -/
theorem c7_witness :
    ∃ r', (Passwd.from_uid false (-1) (osDB [rootEntry, aliceEntry]) aliceRec.uid).1
        = Except.ok (some r') ∧ r'.name = aliceRec.name ∧ r'.uid = aliceRec.uid ∧
        r'.gid = aliceRec.gid ∧ r'.home_dir = aliceRec.home_dir ∧
        r'.shell = aliceRec.shell :=
  c7_roundtrip_distinct_uids false (-1) [rootEntry, aliceEntry] "alice" aliceRec
    (by decide) (by decide)
